import Mathlib

/-!
Shallow embedding of the `uecs-ccm-mcp` core (protocol codec, sensor cache,
guarded sender) translated from `src/uecs_ccm_mcp/ccm_protocol.py`,
`cache.py` and `ccm_sender.py`.

Modelling conventions:
* Python `int` is `ℤ`, Python `float` values that cross the XML boundary are
  exact decimals (`Deci`, mantissa × 10^-exponent); wall-clock and monotonic
  times are `ℚ` seconds.
* Python objects that are mutated in place (`NodeInfo`, `CacheEntry`) are
  modelled with an explicit object heap: an allocation counter plus an
  association list from object id to current contents, so that reference
  sharing between the cache and values returned to callers is observable.
* The XML document is modelled as the element tree that
  `xml.etree.ElementTree` produces: a root tag with attributes and child
  elements, each child carrying tag, attributes and text.  Serialisation of
  this tree to bytes and reparsing is the standard library's job and is
  assumed faithful; attribute values and element text remain plain strings,
  so the numeric text round-trips of the source are modelled exactly.
* The f-string rendering of ints (`str(int)`) and the decimal rendering of
  floats is modelled by `renderInt` / `renderDeciChars`; Python `float(...)`
  and `int(...)` on strings are modelled by `parseFloatChars` /
  `parseIntChars` restricted to the sign/digits/point forms that the builder
  emits (Python additionally accepts exponent notation and surrounding
  whitespace, which the builder never produces).
-/

namespace UecsCcm

/-- One decimal digit character, as produced by Python's `str` on integers. -/
def digitChar (d : ℕ) : Char :=
  if d = 0 then '0' else if d = 1 then '1' else if d = 2 then '2'
  else if d = 3 then '3' else if d = 4 then '4' else if d = 5 then '5'
  else if d = 6 then '6' else if d = 7 then '7' else if d = 8 then '8' else '9'

/-- Numeric value of a digit character. -/
def digitVal (c : Char) : ℕ := c.toNat - 48

/-- Fuel-driven digit expansion (the fuel only forces structural recursion;
`natToDigits` supplies enough of it for the recursion never to exhaust). -/
def natToDigitsAux (fuel : ℕ) (n : ℕ) : List Char :=
  match fuel with
  | 0 => []
  | fuel + 1 =>
    if n < 10 then [digitChar n]
    else natToDigitsAux fuel (n / 10) ++ [digitChar (n % 10)]

/-- Decimal digit list of a natural number, most significant first
(models Python `str` on a non-negative int). -/
def natToDigits (n : ℕ) : List Char := natToDigitsAux (n + 1) n

/-- Value of a digit list, most significant first. -/
def digitsVal (cs : List Char) : ℕ :=
  cs.foldl (fun a c => a * 10 + digitVal c) 0

/-- Decimal rendering of an integer (models Python `str` on `int`). -/
def renderInt (i : ℤ) : List Char :=
  if i < 0 then '-' :: natToDigits i.natAbs else natToDigits i.natAbs

/-- Left-pad a digit list with `'0'` up to length `k`. -/
def padLeftZeros (k : ℕ) (ds : List Char) : List Char :=
  List.replicate (k - ds.length) '0' ++ ds

/-- An exact decimal number `m / 10 ^ e`: the form in which numeric values
cross the XML text boundary. -/
structure Deci where
  m : ℤ
  e : ℕ
deriving DecidableEq, Repr

/-- The rational denoted by a `Deci`. -/
def Deci.toRat (d : Deci) : ℚ := (d.m : ℚ) / 10 ^ d.e

/-- Decimal character rendering of a `Deci` (models Python's rendering of
ints and of floats in positional notation). -/
def renderDeciChars (d : Deci) : List Char :=
  let n := d.m.natAbs
  let body :=
    if d.e = 0 then natToDigits n
    else natToDigits (n / 10 ^ d.e) ++
      '.' :: padLeftZeros d.e (natToDigits (n % 10 ^ d.e))
  if d.m < 0 then '-' :: body else body

/-- Unsigned part of Python `float(...)` on a string: digits with an optional
fractional part. -/
def parseUnsignedChars (cs : List Char) : Option ℚ :=
  let ip := cs.takeWhile Char.isDigit
  let rest := cs.dropWhile Char.isDigit
  match rest with
  | [] => if ip.isEmpty then none else some ((digitsVal ip : ℚ))
  | c :: frac =>
    if c = '.' then
      if frac.all Char.isDigit ∧ ¬(ip.isEmpty ∧ frac.isEmpty) then
        some (((digitsVal ip : ℚ) * 10 ^ frac.length + (digitsVal frac : ℚ)) /
          10 ^ frac.length)
      else none
    else none

/-- Python `float(...)` on a trimmed string (sign/digits/point forms). -/
def parseFloatChars (cs : List Char) : Option ℚ :=
  match cs with
  | [] => none
  | c :: rest =>
    if c = '-' then (parseUnsignedChars rest).map (fun q => -q)
    else if c = '+' then parseUnsignedChars rest
    else parseUnsignedChars (c :: rest)

/-- Python `int(...)` on a string (sign/digits forms). -/
def parseNatChars (cs : List Char) : Option ℕ :=
  if cs.isEmpty then none
  else if cs.all Char.isDigit then some (digitsVal cs) else none

/-- Python `int(...)` on a string, signed. -/
def parseIntChars (cs : List Char) : Option ℤ :=
  match cs with
  | [] => none
  | c :: rest =>
    if c = '-' then (parseNatChars rest).map (fun n : ℕ => -(n : ℤ))
    else if c = '+' then (parseNatChars rest).map (fun n : ℕ => (n : ℤ))
    else (parseNatChars (c :: rest)).map (fun n : ℕ => (n : ℤ))

/-- Whitespace characters removed by Python `str.strip()`. -/
def isSpaceChar (c : Char) : Bool :=
  c = ' ' || c = '\t' || c = '\n' || c = '\r' || c = '\x0b' || c = '\x0c'

/-- Python `str.strip()` on a character list. -/
def trimChars (cs : List Char) : List Char :=
  ((cs.dropWhile isSpaceChar).reverse.dropWhile isSpaceChar).reverse

/-- Python `str.strip()`. -/
def pyStrip (s : String) : String := ⟨trimChars s.data⟩

/-- First-match association-list lookup (models Python `dict` lookup and
`Element.get`). -/
def alookup {K V : Type} [DecidableEq K] : List (K × V) → K → Option V
  | [], _ => none
  | (k, v) :: rest, k0 => if k0 = k then some v else alookup rest k0

/-- Python `dict` assignment `d[k] = v`: replaces in place when the key is
present, otherwise appends preserving insertion order. -/
def dictSet {K V : Type} [DecidableEq K] (l : List (K × V)) (k : K) (v : V) :
    List (K × V) :=
  if l.any (fun p => p.1 = k) then
    l.map (fun p => if p.1 = k then (k, v) else p)
  else l ++ [(k, v)]

/-- Substring test (models Python `needle in hay` on strings). -/
def listContainsSub (needle : List Char) : List Char → Bool
  | [] => needle.isEmpty
  | c :: rest => needle.isPrefixOf (c :: rest) || listContainsSub needle rest

/-- Python `needle in hay` for strings. -/
def pyContains (hay needle : String) : Bool := listContainsSub needle.data hay.data

/-! ## Protocol codec (`ccm_protocol.py`) -/

/-- Suffix stripping on character lists, modelling
`re.sub(r"\.(mC|cMC|MC)$", "", s)`.  `$` matches at the end of the string and
also just before one trailing newline, so both families of endings are
removed; the three suffixes are mutually exclusive as endings, making the
order of the tests irrelevant. -/
def stripCcmSuffixChars (cs : List Char) : List Char :=
  if List.isSuffixOf ['.', 'm', 'C'] cs then cs.take (cs.length - 3)
  else if List.isSuffixOf ['.', 'c', 'M', 'C'] cs then cs.take (cs.length - 4)
  else if List.isSuffixOf ['.', 'M', 'C'] cs then cs.take (cs.length - 3)
  else if List.isSuffixOf ['.', 'm', 'C', '\n'] cs then
    cs.take (cs.length - 4) ++ ['\n']
  else if List.isSuffixOf ['.', 'c', 'M', 'C', '\n'] cs then
    cs.take (cs.length - 5) ++ ['\n']
  else if List.isSuffixOf ['.', 'M', 'C', '\n'] cs then
    cs.take (cs.length - 4) ++ ['\n']
  else cs

/-- Whether the regex `\.(mC|cMC|MC)$` matches anywhere in the string. -/
def hasCcmSuffix (s : String) : Bool :=
  List.isSuffixOf ['.', 'm', 'C'] s.data ||
  List.isSuffixOf ['.', 'c', 'M', 'C'] s.data ||
  List.isSuffixOf ['.', 'M', 'C'] s.data ||
  List.isSuffixOf ['.', 'm', 'C', '\n'] s.data ||
  List.isSuffixOf ['.', 'c', 'M', 'C', '\n'] s.data ||
  List.isSuffixOf ['.', 'M', 'C', '\n'] s.data

/-- `strip_ccm_suffix` from `ccm_protocol.py`: remove a `.mC` / `.cMC` /
`.MC` suffix from a CCM type string. -/
def strip_ccm_suffix (s : String) : String := ⟨stripCcmSuffixChars s.data⟩

/-- Packet value: numeric when Python `float(...)` succeeds on the trimmed
text, otherwise the (trimmed) string. -/
inductive CcmValue where
  | num (q : ℚ)
  | str (s : String)
deriving DecidableEq, Repr

/-- `CcmPacket` from `ccm_protocol.py` (a parsed UECS-CCM data packet). -/
structure CcmPacket where
  ccm_type : String
  raw_type : String
  value : CcmValue
  room : ℤ
  region : ℤ
  order : ℤ
  priority : ℤ
  level : String
  cast : String
  source_ip : String
  timestamp : ℚ
deriving DecidableEq, Repr

/-- An XML element as exposed by `xml.etree.ElementTree`: tag, attributes
and text body. -/
structure XmlElem where
  tag : String
  attrs : List (String × String)
  text : String
deriving DecidableEq, Repr

/-- A parsed XML document: root tag, root attributes, child elements in
document order. -/
structure XmlDoc where
  rootTag : String
  rootAttrs : List (String × String)
  children : List XmlElem
deriving DecidableEq, Repr

/-- The per-element body of the `parse_ccm_xml` loop: build one `CcmPacket`
from a `DATA` element (`ccm_protocol.py` lines 77-107). -/
def elemToPacket (source_ip : String) (now : ℚ) (el : XmlElem) : CcmPacket :=
  let raw_type := (alookup el.attrs "type").getD ""
  let raw_value := pyStrip el.text
  let value := match parseFloatChars raw_value.data with
    | some q => CcmValue.num q
    | none => CcmValue.str raw_value
  let getInt := fun (attr : String) (default : ℤ) =>
    match alookup el.attrs attr with
    | none => default
    | some s => (parseIntChars s.data).getD default
  { ccm_type := strip_ccm_suffix raw_type
    raw_type := raw_type
    value := value
    room := getInt "room" 1
    region := getInt "region" 1
    order := getInt "order" 1
    priority := getInt "priority" 29
    level := (alookup el.attrs "lv").getD "S"
    cast := (alookup el.attrs "cast").getD "uni"
    source_ip := source_ip
    timestamp := now }

/-- `parse_ccm_xml` from `ccm_protocol.py`.  The argument is the element
tree obtained from the payload bytes: `none` models a decode or XML parse
failure (which yields the empty list); `root.findall("DATA")` selects the
children tagged `DATA` in document order. -/
def parse_ccm_xml (doc : Option XmlDoc) (source_ip : String) (now : ℚ) :
    List CcmPacket :=
  match doc with
  | none => []
  | some d =>
    (d.children.filter (fun el => el.tag = "DATA")).map (elemToPacket source_ip now)

/-- A value passed to `build_ccm_xml` (Python `float | int | str`). -/
inductive PyVal where
  | num (d : Deci)
  | str (s : String)
deriving DecidableEq, Repr

/-- Python `str(...)` / f-string interpolation of a `PyVal`. -/
def renderPyVal : PyVal → String
  | .num d => ⟨renderDeciChars d⟩
  | .str s => s

/-- `build_ccm_xml` from `ccm_protocol.py`, as the element tree denoted by
the rendered XML text: one `DATA` child carrying the arguments and a
trailing `IP` child carrying the sender address.  Python defaults (room,
region, order = 1, priority = 10, level = "A", cast = "uni") are supplied
explicitly at call sites; `local_ip` is the caller-supplied or auto-detected
sender address. -/
def build_ccm_xml (ccm_type : String) (value : PyVal)
    (room region order priority : ℤ) (level cast local_ip : String) : XmlDoc :=
  { rootTag := "UECS"
    rootAttrs := [("ver", "1.00-E10")]
    children := [
      { tag := "DATA"
        attrs := [("type", ccm_type), ("room", ⟨renderInt room⟩),
                  ("region", ⟨renderInt region⟩), ("order", ⟨renderInt order⟩),
                  ("priority", ⟨renderInt priority⟩),
                  ("lv", level), ("cast", cast)]
        text := renderPyVal value },
      { tag := "IP", attrs := [], text := local_ip } ] }

/-- Placeholder packet used as the default of positional list access in
theorem statements (never produced by the codec). -/
def defaultCcmPacket : CcmPacket :=
  { ccm_type := "", raw_type := "", value := .str "", room := 1, region := 1,
    order := 1, priority := 29, level := "S", cast := "uni", source_ip := "",
    timestamp := 0 }

/-- Placeholder element used as the default of positional list access in
theorem statements. -/
def defaultXmlElem : XmlElem := { tag := "", attrs := [], text := "" }

/-! ## Sensor cache (`cache.py`)

`CacheEntry` and `NodeInfo` are mutable Python objects.  `update` installs a
*fresh* `CacheEntry` on every call but mutates the existing `NodeInfo` of a
known source address in place.  To make this sharing observable the state
carries explicit object heaps: an allocation counter and an association list
from object id to current contents.  The value map and the node registry
hold object ids; read operations return the ids they would return as object
references in Python. -/

/-- CCM type classification table `SENSOR_TYPES` from `cache.py`. -/
def SENSOR_TYPES : List String :=
  ["InAirTemp", "InAirHumid", "InAirCO2", "SoilTemp",
   "InRadiation", "SoilEC", "SoilMoisture", "Pulse"]

/-- CCM type classification table `ACTUATOR_TYPES` from `cache.py`. -/
def ACTUATOR_TYPES : List String :=
  ["IrrircA", "Irriopr", "VenFanrcA", "CurtainrcA",
   "MistrcA", "CO2rcA", "SideWinrcA", "HeatrcA",
   "CircFanrcA", "VentrcA"]

/-- CCM type classification table `WEATHER_TYPES` from `cache.py`. -/
def WEATHER_TYPES : List String :=
  ["WAirTemp", "WAirHumid", "WWindSpeed", "WWindDir16",
   "WRainfall", "WRainfallAmt"]

/-- `classify_ccm_type` from `cache.py`. -/
def classify_ccm_type (ccm_type : String) : String :=
  if ccm_type ∈ SENSOR_TYPES then "sensor"
  else if ccm_type ∈ ACTUATOR_TYPES then "actuator"
  else if ccm_type ∈ WEATHER_TYPES then "weather"
  else "other"

/-- `CacheEntry` from `cache.py`: a cached packet with update time. -/
structure CacheEntry where
  packet : CcmPacket
  updated_at : ℚ
deriving DecidableEq, Repr

/-- `NodeInfo` from `cache.py`: a tracked UECS node. -/
structure NodeInfo where
  ip : String
  ccm_types : List String
  last_seen : ℚ
deriving DecidableEq, Repr

/-- Python `set.add` on the insertion-ordered list modelling
`NodeInfo.ccm_types`. -/
def setAdd (l : List String) (x : String) : List String :=
  if x ∈ l then l else l ++ [x]

/-- In-place mutation of the heap object with id `i`. -/
def heapSet {V : Type} (h : List (ℕ × V)) (i : ℕ) (f : V → V) : List (ℕ × V) :=
  h.map (fun p => if p.1 = i then (p.1, f p.2) else p)

/-- `SensorCache` state from `cache.py`.  `data` maps `(house_id, ccm_type)`
to the id of the current `CacheEntry` object, `nodes` maps a source ip to
the id of its `NodeInfo` object; the two heaps give each object id its
current contents. -/
structure SensorCache where
  data : List ((String × String) × ℕ)
  entryHeap : List (ℕ × CacheEntry)
  nextEntryId : ℕ
  nodes : List (String × ℕ)
  nodeHeap : List (ℕ × NodeInfo)
  nextNodeId : ℕ
deriving DecidableEq, Repr

/-- A freshly constructed `SensorCache()`. -/
def emptyCache : SensorCache := ⟨[], [], 0, [], [], 0⟩

/-- `SensorCache.update`: install a fresh `CacheEntry` under
`("h" + room, ccm_type)` and upsert the node record for the source address —
creating a fresh `NodeInfo` for an unknown address, and mutating the
existing object in place (adding the type, refreshing `last_seen`) for a
known one. -/
def SensorCache.update (s : SensorCache) (p : CcmPacket) (now : ℚ) : SensorCache :=
  let house_id : String := "h" ++ ⟨renderInt p.room⟩
  let key := (house_id, p.ccm_type)
  let eid := s.nextEntryId
  let s1 := { s with
    data := dictSet s.data key eid
    entryHeap := (eid, ⟨p, now⟩) :: s.entryHeap
    nextEntryId := eid + 1 }
  if p.source_ip = "" then s1
  else
    match alookup s1.nodes p.source_ip with
    | some nid =>
      { s1 with
        nodeHeap := heapSet s1.nodeHeap nid (fun ni =>
          { ni with
            ccm_types := setAdd ni.ccm_types p.ccm_type
            last_seen := now }) }
    | none =>
      let nid := s1.nextNodeId
      { s1 with
        nodes := s1.nodes ++ [(p.source_ip, nid)]
        nodeHeap := (nid, { ip := p.source_ip
                            ccm_types := setAdd [] p.ccm_type
                            last_seen := now }) :: s1.nodeHeap
        nextNodeId := nid + 1 }

/-- `SensorCache.get`: the contents of the entry object currently cached
under `(house_id, ccm_type)`. -/
def SensorCache.get (s : SensorCache) (house_id ccm_type : String) :
    Option CacheEntry :=
  (alookup s.data (house_id, ccm_type)).bind (fun i => alookup s.entryHeap i)

/-- `SensorCache.get_by_category`: the `(ccm_type, entry object id)` pairs
for one house and one category, in map order. -/
def SensorCache.get_by_category (s : SensorCache) (house_id category : String) :
    List (String × ℕ) :=
  (s.data.filter
    (fun kv => kv.1.1 = house_id ∧ classify_ccm_type kv.1.2 = category)).map
    (fun kv => (kv.1.2, kv.2))

/-- `SensorCache.list_nodes`: the ids of the `NodeInfo` objects returned
(Python returns the objects themselves); with `active_only` the node's
current `last_seen` must be within `timeout_seconds` of `now`. -/
def SensorCache.list_nodes (s : SensorCache) (active_only : Bool)
    (timeout_seconds : ℚ) (now : ℚ) : List ℕ :=
  let ids := s.nodes.map (fun p => p.2)
  if active_only then
    ids.filter (fun i =>
      match alookup s.nodeHeap i with
      | some ni => decide (now - ni.last_seen < timeout_seconds)
      | none => false)
  else ids

/-- `SensorCache.all_entries`: `dict(self._data)` — a shallow copy of the
value map, sharing the entry objects. -/
def SensorCache.all_entries (s : SensorCache) : List ((String × String) × ℕ) :=
  s.data

/-! ## Guarded sender (`ccm_sender.py`) -/

/-- `SafetyLimits` from `ccm_sender.py`. -/
structure SafetyLimits where
  allowed_actuators : List String
  min_send_interval_seconds : ℚ
  max_irrigation_duration_seconds : ℤ
deriving DecidableEq, Repr

/-- The default `SafetyLimits()`. -/
def defaultSafetyLimits : SafetyLimits :=
  { allowed_actuators :=
      ["Irri", "VenFan", "CirHoriFan", "AirHeatBurn", "AirHeatHP", "CO2Burn",
       "VenRfWin", "VenSdWin", "ThCrtn", "LsCrtn", "AirCoolHP", "AirHumFog"]
    min_send_interval_seconds := 1
    max_irrigation_duration_seconds := 3600 }

/-- The `ValueError`s raised by `CcmSender`, with the data their messages
carry (the Python messages additionally render `elapsed` to one decimal and
sort the allowed list). -/
inductive SendError where
  | notAllowed (ccm_type : String) (allowed : List String)
  | rateLimited (elapsed : ℚ) (minInterval : ℚ)
  | irrigationTooLong (duration : ℤ) (maxDuration : ℤ)
deriving DecidableEq, Repr

/-- `CcmSender` mutable state: the single scalar `_last_send_time`, the
`_off_timers` map from `"room:type"` to the pending auto-off task (as a task
id plus a set of cancelled ids and an allocation counter), and the log of
packets transmitted on the UDP socket (oldest first). -/
structure SenderState where
  lastSendTime : ℚ
  offTimers : List (String × ℕ)
  cancelledTimers : List ℕ
  nextTimerId : ℕ
  sentLog : List XmlDoc
deriving DecidableEq, Repr

/-- A freshly constructed `CcmSender()` (`_last_send_time = 0.0`). -/
def initialSender : SenderState := ⟨0, [], [], 0, []⟩

/-- `CcmSender.send`.  `now` is the value of `time.monotonic()` during the
call and `local_ip` the auto-detected sender address passed to the builder.
The returned state is the post-call state whether or not a `ValueError` is
raised (a raised validation error leaves the state untouched). -/
def CcmSender.send (limits : SafetyLimits) (s : SenderState) (ccm_type : String)
    (value : Deci) (room region order priority : ℤ) (now : ℚ)
    (local_ip : String) : SenderState × Except SendError String :=
  if ccm_type ∉ limits.allowed_actuators then
    (s, .error (.notAllowed ccm_type limits.allowed_actuators))
  else
    let elapsed := now - s.lastSendTime
    if elapsed < limits.min_send_interval_seconds then
      (s, .error (.rateLimited elapsed limits.min_send_interval_seconds))
    else
      let xml := build_ccm_xml ccm_type (.num value) room region order priority
        "A" "uni" local_ip
      let state_str := if value.m ≠ 0 then "ON" else "OFF"
      let msg := "Sent " ++ ccm_type ++ "=" ++ state_str ++ " (priority=" ++
        (⟨renderInt priority⟩ : String) ++ ", room=" ++
        (⟨renderInt room⟩ : String) ++ ")"
      ({ s with sentLog := s.sentLog ++ [xml], lastSendTime := now }, .ok msg)

/-- `CcmSender.send_with_duration`.  The irrigation guard fires before the
timer cancellation and before `send`; on the success path with a truthy
value a fresh auto-off task is scheduled under `"room:type"`. -/
def CcmSender.send_with_duration (limits : SafetyLimits) (s : SenderState)
    (ccm_type : String) (value : Deci) (duration_seconds : ℤ)
    (room region order priority : ℤ) (now : ℚ) (local_ip : String) :
    SenderState × Except SendError String :=
  if pyContains ccm_type "Irri" = true ∧
      duration_seconds > limits.max_irrigation_duration_seconds then
    (s, .error (.irrigationTooLong duration_seconds
      limits.max_irrigation_duration_seconds))
  else
    let timer_key : String := (⟨renderInt room⟩ : String) ++ ":" ++ ccm_type
    let s1 := match alookup s.offTimers timer_key with
      | some tid => { s with cancelledTimers := tid :: s.cancelledTimers }
      | none => s
    match CcmSender.send limits s1 ccm_type value room region order priority
        now local_ip with
    | (s2, .error e) => (s2, .error e)
    | (s2, .ok msg) =>
      if value.m ≠ 0 then
        let tid := s2.nextTimerId
        ({ s2 with offTimers := dictSet s2.offTimers timer_key tid
                   nextTimerId := tid + 1 },
         .ok (msg ++ " (auto-OFF in " ++ (⟨renderInt duration_seconds⟩ : String)
           ++ "s)"))
      else (s2, .ok msg)

/-! ## Lemmas: decimal rendering and reparsing -/

theorem natToDigitsAux_congr :
    ∀ fuel fuel' n : ℕ, n < fuel → n < fuel' →
      natToDigitsAux fuel n = natToDigitsAux fuel' n := by
  intro fuel
  induction fuel with
  | zero => intro fuel' n h _; omega
  | succ fuel ih =>
    intro fuel' n h h'
    cases fuel' with
    | zero => omega
    | succ fuel' =>
      show (if n < 10 then _ else _) = (if n < 10 then _ else _)
      by_cases h10 : n < 10
      · rw [if_pos h10, if_pos h10]
      · rw [if_neg h10, if_neg h10,
          ih fuel' (n / 10) (by omega) (by omega)]

theorem natToDigits_eq (n : ℕ) :
    natToDigits n = if n < 10 then [digitChar n]
      else natToDigits (n / 10) ++ [digitChar (n % 10)] := by
  show natToDigitsAux (n + 1) n = _
  by_cases h10 : n < 10
  · rw [if_pos h10]
    show (if n < 10 then _ else _) = _
    rw [if_pos h10]
  · rw [if_neg h10]
    show (if n < 10 then _ else _) = _
    rw [if_neg h10,
      natToDigitsAux_congr n (n / 10 + 1) (n / 10) (by omega) (by omega)]
    rfl

theorem digitVal_digitChar {d : ℕ} (h : d < 10) : digitVal (digitChar d) = d := by
  interval_cases d <;> rfl

theorem isDigit_digitChar (d : ℕ) : (digitChar d).isDigit = true := by
  unfold digitChar
  repeat' split
  all_goals rfl

theorem natToDigits_ne_nil (n : ℕ) : natToDigits n ≠ [] := by
  rw [natToDigits_eq]
  split <;> simp

theorem natToDigits_all_digit (n : ℕ) : ∀ c ∈ natToDigits n, c.isDigit = true := by
  induction n using Nat.strong_induction_on with
  | _ n ih =>
    rw [natToDigits_eq]
    split
    · intro c hc
      rw [List.mem_singleton] at hc
      subst hc
      exact isDigit_digitChar n
    · next h =>
      intro c hc
      rw [List.mem_append] at hc
      rcases hc with hc | hc
      · exact ih (n / 10) (Nat.div_lt_self (by omega) (by norm_num)) c hc
      · rw [List.mem_singleton] at hc
        subst hc
        exact isDigit_digitChar _

theorem digitsVal_append_singleton (cs : List Char) (c : Char) :
    digitsVal (cs ++ [c]) = digitsVal cs * 10 + digitVal c := by
  simp [digitsVal, List.foldl_append]

theorem digitsVal_natToDigits (n : ℕ) : digitsVal (natToDigits n) = n := by
  induction n using Nat.strong_induction_on with
  | _ n ih =>
    rw [natToDigits_eq]
    split
    · next h =>
      simp [digitsVal, digitVal_digitChar h]
    · next h =>
      rw [digitsVal_append_singleton,
        ih (n / 10) (Nat.div_lt_self (by omega) (by norm_num)),
        digitVal_digitChar (Nat.mod_lt n (by norm_num))]
      omega

theorem natToDigits_length_le : ∀ n k : ℕ, 0 < k → n < 10 ^ k →
    (natToDigits n).length ≤ k := by
  intro n
  induction n using Nat.strong_induction_on with
  | _ n ih =>
    intro k hk h
    rw [natToDigits_eq]
    split
    · simpa using hk
    · next hn =>
      rcases k with _ | k
      · omega
      rcases k with _ | k
      · rw [pow_one] at h
        omega
      have hdiv : n / 10 < 10 ^ (k + 1) := by
        rw [Nat.div_lt_iff_lt_mul (by norm_num)]
        calc n < 10 ^ (k + 2) := h
          _ = 10 ^ (k + 1) * 10 := by ring
      have := ih (n / 10) (Nat.div_lt_self (by omega) (by norm_num)) (k + 1)
        (by omega) hdiv
      simp only [List.length_append, List.length_singleton]
      omega

theorem digitsVal_replicate_zero (j : ℕ) (ds : List Char) :
    digitsVal (List.replicate j '0' ++ ds) = digitsVal ds := by
  induction j with
  | zero => simp
  | succ j ih =>
    rw [List.replicate_succ, List.cons_append]
    have h0 : (0 : ℕ) * 10 + digitVal '0' = 0 := rfl
    simpa [digitsVal, h0] using ih

theorem isDigit_replicate_zero_append {j : ℕ} {ds : List Char}
    (h : ∀ c ∈ ds, c.isDigit = true) :
    ∀ c ∈ List.replicate j '0' ++ ds, c.isDigit = true := by
  intro c hc
  rw [List.mem_append] at hc
  rcases hc with hc | hc
  · rw [List.eq_of_mem_replicate hc]
    rfl
  · exact h c hc

theorem ne_of_isDigit {c x : Char} (h : c.isDigit = true) (hx : x.isDigit = false) :
    ¬(c = x) := by
  rintro rfl
  rw [h] at hx
  exact Bool.noConfusion hx

theorem takeWhile_append_stop {p : Char → Bool} {ds fs : List Char} {x : Char}
    (hds : ∀ c ∈ ds, p c = true) (hx : p x = false) :
    (ds ++ x :: fs).takeWhile p = ds := by
  induction ds with
  | nil => simp [List.takeWhile_cons, hx]
  | cons d rest ih =>
    rw [List.cons_append, List.takeWhile_cons, if_pos (hds d (by simp)),
      ih (fun c hc => hds c (by simp [hc]))]

theorem dropWhile_append_stop {p : Char → Bool} {ds fs : List Char} {x : Char}
    (hds : ∀ c ∈ ds, p c = true) (hx : p x = false) :
    (ds ++ x :: fs).dropWhile p = x :: fs := by
  induction ds with
  | nil => simp [List.dropWhile_cons, hx]
  | cons d rest ih =>
    rw [List.cons_append, List.dropWhile_cons, if_pos (hds d (by simp))]
    exact ih (fun c hc => hds c (by simp [hc]))

theorem parseUnsigned_digits {ds : List Char} (h : ∀ c ∈ ds, c.isDigit = true)
    (hne : ds ≠ []) : parseUnsignedChars ds = some ((digitsVal ds : ℚ)) := by
  have h1 : ds.takeWhile Char.isDigit = ds := List.takeWhile_eq_self_iff.mpr h
  have h2 : ds.dropWhile Char.isDigit = [] := List.dropWhile_eq_nil_iff.mpr h
  simp [parseUnsignedChars, h1, h2, hne]

theorem parseUnsigned_point {ds fs : List Char}
    (hds : ∀ c ∈ ds, c.isDigit = true) (hdne : ds ≠ [])
    (hfs : ∀ c ∈ fs, c.isDigit = true) :
    parseUnsignedChars (ds ++ '.' :: fs)
      = some (((digitsVal ds : ℚ) * 10 ^ fs.length + (digitsVal fs : ℚ)) /
          10 ^ fs.length) := by
  have hdot : ('.').isDigit = false := rfl
  have h1 := @takeWhile_append_stop Char.isDigit ds fs '.' hds hdot
  have h2 := @dropWhile_append_stop Char.isDigit ds fs '.' hds hdot
  simp [parseUnsignedChars, h1, h2, List.all_eq_true.mpr hfs, hdne]

theorem parseFloat_cons_dash (rest : List Char) :
    parseFloatChars ('-' :: rest) = (parseUnsignedChars rest).map (fun q => -q) := by
  simp only [parseFloatChars]
  simp

theorem parseFloat_of_digit_head {c : Char} (rest : List Char)
    (hc : c.isDigit = true) :
    parseFloatChars (c :: rest) = parseUnsignedChars (c :: rest) := by
  simp only [parseFloatChars]
  rw [if_neg (ne_of_isDigit hc (by rfl)), if_neg (ne_of_isDigit hc (by rfl))]

theorem parseFloat_of_digits {ds : List Char} (h : ∀ c ∈ ds, c.isDigit = true)
    (hne : ds ≠ []) : parseFloatChars ds = parseUnsignedChars ds := by
  cases ds with
  | nil => exact absurd rfl hne
  | cons c rest => exact parseFloat_of_digit_head rest (h c (by simp))

theorem renderDeciChars_eq (m : ℤ) (e : ℕ) :
    renderDeciChars ⟨m, e⟩ =
      (if m < 0 then ['-'] else []) ++
      (if e = 0 then natToDigits m.natAbs
       else natToDigits (m.natAbs / 10 ^ e) ++
         '.' :: padLeftZeros e (natToDigits (m.natAbs % 10 ^ e))) := by
  unfold renderDeciChars
  by_cases hm : m < 0 <;> by_cases he : e = 0 <;> simp [hm, he]

theorem natCast_natAbs_of_neg {m : ℤ} (hm : m < 0) : ((m.natAbs : ℚ)) = -(m : ℚ) := by
  rw [Int.cast_natAbs, abs_of_neg hm]
  push_cast
  ring

theorem natCast_natAbs_of_nonneg {m : ℤ} (hm : 0 ≤ m) : ((m.natAbs : ℚ)) = (m : ℚ) := by
  rw [Int.cast_natAbs, abs_of_nonneg hm]

theorem parseFloat_renderDeci (d : Deci) :
    parseFloatChars (renderDeciChars d) = some d.toRat := by
  obtain ⟨m, e⟩ := d
  rw [renderDeciChars_eq]
  have hdigits : parseUnsignedChars (natToDigits m.natAbs)
      = some ((m.natAbs : ℚ)) := by
    rw [parseUnsigned_digits (natToDigits_all_digit _) (natToDigits_ne_nil _),
      digitsVal_natToDigits]
  rcases Nat.eq_zero_or_pos e with he | he
  · subst he
    rw [if_pos rfl]
    rcases lt_or_le m 0 with hm | hm
    · rw [if_pos hm, List.singleton_append, parseFloat_cons_dash, hdigits,
        Option.map_some', natCast_natAbs_of_neg hm]
      simp [Deci.toRat]
    · rw [if_neg (not_lt.mpr hm), List.nil_append,
        parseFloat_of_digits (natToDigits_all_digit _) (natToDigits_ne_nil _),
        hdigits, natCast_natAbs_of_nonneg hm]
      simp [Deci.toRat]
  · have hne0 : ¬(e = 0) := by omega
    rw [if_neg hne0]
    set n := m.natAbs with hn
    set q := n / 10 ^ e with hq
    set r := n % 10 ^ e with hr
    have hrlt : r < 10 ^ e := Nat.mod_lt n (by positivity)
    have hle : (natToDigits r).length ≤ e := natToDigits_length_le r e he hrlt
    have hlen : (padLeftZeros e (natToDigits r)).length = e := by
      rw [padLeftZeros, List.length_append, List.length_replicate]
      omega
    have hfdig : ∀ c ∈ padLeftZeros e (natToDigits r), c.isDigit = true :=
      isDigit_replicate_zero_append (natToDigits_all_digit r)
    have hfval : digitsVal (padLeftZeros e (natToDigits r)) = r := by
      rw [padLeftZeros, digitsVal_replicate_zero, digitsVal_natToDigits]
    have hbody : parseUnsignedChars
        (natToDigits q ++ '.' :: padLeftZeros e (natToDigits r))
          = some ((n : ℚ) / 10 ^ e) := by
      rw [parseUnsigned_point (natToDigits_all_digit q) (natToDigits_ne_nil q)
        hfdig, hlen, digitsVal_natToDigits, hfval]
      congr 1
      have hnn : q * 10 ^ e + r = n := by
        rw [hq, hr, Nat.mul_comm]
        exact Nat.div_add_mod n (10 ^ e)
      have hcast : (q : ℚ) * 10 ^ e + (r : ℚ) = (n : ℚ) := by
        calc (q : ℚ) * 10 ^ e + (r : ℚ) = ((q * 10 ^ e + r : ℕ) : ℚ) := by
              push_cast
              ring
          _ = (n : ℚ) := by rw [hnn]
      rw [hcast]
    rcases lt_or_le m 0 with hm | hm
    · rw [if_pos hm, List.singleton_append, parseFloat_cons_dash, hbody,
        Option.map_some']
      have hcast : ((n : ℚ)) = -(m : ℚ) := by
        rw [hn]
        exact natCast_natAbs_of_neg hm
      rw [hcast, Deci.toRat]
      simp [neg_div]
    · rw [if_neg (not_lt.mpr hm), List.nil_append]
      cases hcs : natToDigits q with
      | nil => exact absurd hcs (natToDigits_ne_nil q)
      | cons c rest =>
        have hc : c.isDigit = true :=
          natToDigits_all_digit q c (by rw [hcs]; simp)
        rw [List.cons_append, parseFloat_of_digit_head _ hc,
          ← List.cons_append, ← hcs, hbody]
        have hcast : ((n : ℚ)) = (m : ℚ) := by
          rw [hn]
          exact natCast_natAbs_of_nonneg hm
        rw [hcast, Deci.toRat]

theorem parseNat_digits {ds : List Char} (h : ∀ c ∈ ds, c.isDigit = true)
    (hne : ds ≠ []) : parseNatChars ds = some (digitsVal ds) := by
  simp [parseNatChars, hne, List.all_eq_true.mpr h]

theorem parseIntChars_dash (rest : List Char) :
    parseIntChars ('-' :: rest)
      = (parseNatChars rest).map (fun n : ℕ => -(n : ℤ)) := by
  simp [parseIntChars]

theorem parseIntChars_digit_head {c : Char} (rest : List Char)
    (hc : c.isDigit = true) :
    parseIntChars (c :: rest)
      = (parseNatChars (c :: rest)).map (fun n : ℕ => (n : ℤ)) := by
  simp only [parseIntChars]
  rw [if_neg (ne_of_isDigit hc (by rfl)), if_neg (ne_of_isDigit hc (by rfl))]

theorem parseInt_renderInt (i : ℤ) : parseIntChars (renderInt i) = some i := by
  unfold renderInt
  split
  · next h =>
    rw [parseIntChars_dash,
      parseNat_digits (natToDigits_all_digit _) (natToDigits_ne_nil _),
      Option.map_some', digitsVal_natToDigits]
    congr 1
    omega
  · next h =>
    cases hcs : natToDigits i.natAbs with
    | nil => exact absurd hcs (natToDigits_ne_nil _)
    | cons c rest =>
      have hc : c.isDigit = true := natToDigits_all_digit _ c (by rw [hcs]; simp)
      rw [parseIntChars_digit_head rest hc, ← hcs,
        parseNat_digits (natToDigits_all_digit _) (natToDigits_ne_nil _),
        Option.map_some', digitsVal_natToDigits]
      congr 1
      omega

/-! ## Lemmas: trimming, association lists, suffix stripping -/

theorem isSpaceChar_eq_false_of_isDigit {c : Char} (h : c.isDigit = true) :
    isSpaceChar c = false := by
  by_cases h1 : c = ' '
  · subst h1; exact absurd h (by decide)
  by_cases h2 : c = '\t'
  · subst h2; exact absurd h (by decide)
  by_cases h3 : c = '\n'
  · subst h3; exact absurd h (by decide)
  by_cases h4 : c = '\r'
  · subst h4; exact absurd h (by decide)
  by_cases h5 : c = '\x0b'
  · subst h5; exact absurd h (by decide)
  by_cases h6 : c = '\x0c'
  · subst h6; exact absurd h (by decide)
  simp [isSpaceChar, h1, h2, h3, h4, h5, h6]

theorem dropWhile_eq_self_of_all_false {p : Char → Bool} {cs : List Char}
    (h : ∀ c ∈ cs, p c = false) : cs.dropWhile p = cs := by
  cases cs with
  | nil => rfl
  | cons c rest => simp [List.dropWhile_cons, h c (by simp)]

theorem trimChars_eq_self {cs : List Char}
    (h : ∀ c ∈ cs, isSpaceChar c = false) : trimChars cs = cs := by
  unfold trimChars
  rw [dropWhile_eq_self_of_all_false h,
    dropWhile_eq_self_of_all_false (fun c hc => h c (List.mem_reverse.mp hc)),
    List.reverse_reverse]

theorem renderDeci_no_space (d : Deci) :
    ∀ c ∈ renderDeciChars d, isSpaceChar c = false := by
  obtain ⟨m, e⟩ := d
  rw [renderDeciChars_eq]
  intro c hc
  rw [List.mem_append] at hc
  rcases hc with hc | hc
  · split at hc
    · rw [List.mem_singleton] at hc
      subst hc
      rfl
    · exact absurd hc (List.not_mem_nil c)
  · split at hc
    · exact isSpaceChar_eq_false_of_isDigit (natToDigits_all_digit _ c hc)
    · rw [List.mem_append] at hc
      rcases hc with hc | hc
      · exact isSpaceChar_eq_false_of_isDigit (natToDigits_all_digit _ c hc)
      · rw [List.mem_cons] at hc
        rcases hc with hc | hc
        · subst hc
          rfl
        · exact isSpaceChar_eq_false_of_isDigit
            (isDigit_replicate_zero_append (natToDigits_all_digit _) c hc)

theorem pyStrip_renderDeci (d : Deci) :
    pyStrip ⟨renderDeciChars d⟩ = (⟨renderDeciChars d⟩ : String) := by
  show (⟨trimChars (renderDeciChars d)⟩ : String) = _
  rw [trimChars_eq_self (renderDeci_no_space d)]

theorem alookup_cons_self {K V : Type} [DecidableEq K] (k : K) (v : V)
    (l : List (K × V)) : alookup ((k, v) :: l) k = some v := by
  simp [alookup]

theorem alookup_replace_of_any {K V : Type} [DecidableEq K] (k : K) (v : V) :
    ∀ l : List (K × V), l.any (fun p => p.1 = k) = true →
      alookup (l.map (fun p => if p.1 = k then (k, v) else p)) k = some v := by
  intro l
  induction l with
  | nil => intro h; exact absurd h (by simp)
  | cons kv rest ih =>
    cases kv with
    | mk k1 v1 =>
      intro h
      by_cases hk : k1 = k
      · rw [List.map_cons]
        rw [show (if (k1, v1).1 = k then (k, v) else (k1, v1)) = (k, v) from
          if_pos hk]
        exact alookup_cons_self k v _
      · have hne : ¬(k = k1) := fun hkk => hk hkk.symm
        rw [List.map_cons]
        rw [show (if (k1, v1).1 = k then (k, v) else (k1, v1)) = (k1, v1) from
          if_neg hk]
        rw [show alookup ((k1, v1) ::
            rest.map (fun p => if p.1 = k then (k, v) else p)) k
            = alookup (rest.map (fun p => if p.1 = k then (k, v) else p)) k from by
          simp [alookup, hne]]
        apply ih
        rw [List.any_cons] at h
        simpa [hk] using h

theorem alookup_append_singleton_of_not_any {K V : Type} [DecidableEq K]
    (k : K) (v : V) : ∀ l : List (K × V), l.any (fun p => p.1 = k) = false →
      alookup (l ++ [(k, v)]) k = some v := by
  intro l
  induction l with
  | nil => intro _; simp [alookup]
  | cons kv rest ih =>
    cases kv with
    | mk k1 v1 =>
      intro h
      rw [List.any_cons, Bool.or_eq_false_iff] at h
      obtain ⟨h1, h2⟩ := h
      have hk : ¬(k1 = k) := by simpa using h1
      have hne : ¬(k = k1) := fun hkk => hk hkk.symm
      rw [List.cons_append,
        show alookup ((k1, v1) :: (rest ++ [(k, v)])) k
            = alookup (rest ++ [(k, v)]) k from by simp [alookup, hne]]
      exact ih h2

theorem alookup_dictSet_self {K V : Type} [DecidableEq K] (l : List (K × V))
    (k : K) (v : V) : alookup (dictSet l k v) k = some v := by
  unfold dictSet
  split
  · next h => exact alookup_replace_of_any k v l h
  · next h =>
    exact alookup_append_singleton_of_not_any k v l (Bool.eq_false_iff.mpr h)

theorem strip_eq_self_of_not_hasCcmSuffix {s : String}
    (h : hasCcmSuffix s = false) : strip_ccm_suffix s = s := by
  obtain ⟨cs⟩ := s
  unfold hasCcmSuffix at h
  simp only [Bool.or_eq_false_iff] at h
  obtain ⟨⟨⟨⟨⟨h1, h2⟩, h3⟩, h4⟩, h5⟩, h6⟩ := h
  unfold strip_ccm_suffix stripCcmSuffixChars
  simp only [String.data] at h1 h2 h3 h4 h5 h6 ⊢
  rw [if_neg (by simp [h1]), if_neg (by simp [h2]), if_neg (by simp [h3]),
    if_neg (by simp [h4]), if_neg (by simp [h5]), if_neg (by simp [h6])]

theorem update_data_eq (s : SensorCache) (p : CcmPacket) (t : ℚ) :
    (SensorCache.update s p t).data
      = dictSet s.data ("h" ++ (⟨renderInt p.room⟩ : String), p.ccm_type)
          s.nextEntryId := by
  simp only [SensorCache.update]
  split
  · rfl
  · split <;> rfl

theorem update_entryHeap_eq (s : SensorCache) (p : CcmPacket) (t : ℚ) :
    (SensorCache.update s p t).entryHeap
      = (s.nextEntryId, ⟨p, t⟩) :: s.entryHeap := by
  simp only [SensorCache.update]
  split
  · rfl
  · split <;> rfl

theorem get_update_self (s : SensorCache) (p : CcmPacket) (t : ℚ) :
    SensorCache.get (SensorCache.update s p t)
      ("h" ++ (⟨renderInt p.room⟩ : String)) p.ccm_type = some ⟨p, t⟩ := by
  unfold SensorCache.get
  rw [update_data_eq, update_entryHeap_eq, alookup_dictSet_self]
  exact alookup_cons_self _ _ _

theorem send_ok_lastSendTime {limits : SafetyLimits} {s : SenderState}
    {ccm_type : String} {value : Deci} {room region order priority : ℤ}
    {t : ℚ} {ip : String} {s1 : SenderState} {msg : String}
    (h : CcmSender.send limits s ccm_type value room region order priority
      t ip = (s1, .ok msg)) : s1.lastSendTime = t := by
  simp only [CcmSender.send] at h
  by_cases hA : ccm_type ∉ limits.allowed_actuators
  · rw [if_pos hA] at h
    simp at h
  rw [if_neg hA] at h
  by_cases hB : t - s.lastSendTime < limits.min_send_interval_seconds
  · rw [if_pos hB] at h
    simp at h
  rw [if_neg hB, Prod.mk.injEq] at h
  obtain ⟨hs1, -⟩ := h
  rw [← hs1]

theorem send_ok_allowed {limits : SafetyLimits} {s : SenderState}
    {ccm_type : String} {value : Deci} {room region order priority : ℤ}
    {t : ℚ} {ip : String} {s1 : SenderState} {msg : String}
    (h : CcmSender.send limits s ccm_type value room region order priority
      t ip = (s1, .ok msg)) : ccm_type ∈ limits.allowed_actuators := by
  by_contra hA
  simp only [CcmSender.send] at h
  rw [if_pos hA] at h
  simp at h

theorem strip_allowed :
    ∀ T ∈ defaultSafetyLimits.allowed_actuators, strip_ccm_suffix T = T := by
  decide

/-! ## Claims -/

/-- C7 counterexample: `strip_ccm_suffix` is not idempotent.  On
`"A.mC.mC"` one application removes only the final `.mC` (the regex is
anchored at the end), leaving `"A.mC"`, and a second application strips
again, so applying it twice differs from applying it once. -/
theorem strip_ccm_suffix_not_idempotent :
    strip_ccm_suffix (strip_ccm_suffix "A.mC.mC") ≠ strip_ccm_suffix "A.mC.mC" := by
  decide

/-- C7 (amended): `strip_ccm_suffix` removes one trailing suffix occurrence;
applying it twice yields the same result as once for every input whose
once-stripped result no longer ends in a matching suffix (in particular any
input without stacked suffixes), and an input with no matching suffix is
returned unchanged. -/
theorem strip_ccm_suffix_conditionally_idempotent (s : String)
    (h : hasCcmSuffix (strip_ccm_suffix s) = false) :
    strip_ccm_suffix (strip_ccm_suffix s) = strip_ccm_suffix s ∧
    (hasCcmSuffix s = false → strip_ccm_suffix s = s) :=
  ⟨strip_eq_self_of_not_hasCcmSuffix h,
   fun h0 => strip_eq_self_of_not_hasCcmSuffix h0⟩

/-- C7 witness: the amended statement at the concrete inputs
`"InAirTemp.mC"` (one suffix, stripped once then stable) and, through the
second conjunct, `"IrrircA"` (no suffix, unchanged). -/
theorem strip_ccm_suffix_conditionally_idempotent_witness :
    (hasCcmSuffix (strip_ccm_suffix "InAirTemp.mC") = false ∧
      strip_ccm_suffix (strip_ccm_suffix "InAirTemp.mC")
        = strip_ccm_suffix "InAirTemp.mC") ∧
    (hasCcmSuffix "IrrircA" = false ∧ strip_ccm_suffix "IrrircA" = "IrrircA") :=
  ⟨⟨by decide,
    (strip_ccm_suffix_conditionally_idempotent "InAirTemp.mC" (by decide)).1⟩,
   ⟨by decide,
    (strip_ccm_suffix_conditionally_idempotent "IrrircA" (by decide)).2
      (by decide)⟩⟩

/-- C8 counterexample: for the element text `" abc "` (non-numeric, with
surrounding whitespace) the parsed packet's value is the *trimmed* string
`"abc"`, not the original untouched text `" abc "`. -/
theorem parse_value_not_original_string :
    ((parse_ccm_xml (some ⟨"UECS", [("ver", "1.00-E10")],
        [⟨"DATA", [("type", "StatusMsg")], " abc "⟩]⟩) "" 0).getD 0
      defaultCcmPacket).value = CcmValue.str "abc" ∧
    (" abc " : String) ≠ "abc" := by
  constructor
  · decide
  · decide

/-- C8 (amended): for every parsed element, the packet's value is the
floating-point conversion of the trimmed text body when that conversion
succeeds, and otherwise the trimmed string; it is never coerced to a number
(in particular not to zero) when the conversion fails. -/
theorem parse_value_num_or_trimmed_string (el : XmlElem) (ip : String) (now : ℚ) :
    (∃ q, parseFloatChars (pyStrip el.text).data = some q ∧
        (elemToPacket ip now el).value = CcmValue.num q) ∨
    (parseFloatChars (pyStrip el.text).data = none ∧
        (elemToPacket ip now el).value = CcmValue.str (pyStrip el.text)) := by
  unfold elemToPacket
  cases h : parseFloatChars (pyStrip el.text).data with
  | none =>
    right
    exact ⟨rfl, by simp [h]⟩
  | some q =>
    left
    exact ⟨q, rfl, by simp [h]⟩

/-- C2: `send_with_duration` for an irrigation-class type (the type contains
the marker `"Irri"`) with a duration exceeding the configured maximum fails
with the duration validation error before anything else happens: the
returned state is exactly the input state, so no packet is transmitted and
no auto-off timer is cancelled or scheduled. -/
theorem send_with_duration_irrigation_guard
    (limits : SafetyLimits) (s : SenderState) (ccm_type : String) (value : Deci)
    (duration_seconds room region order priority : ℤ) (now : ℚ)
    (local_ip : String)
    (hIrri : pyContains ccm_type "Irri" = true)
    (hDur : duration_seconds > limits.max_irrigation_duration_seconds) :
    CcmSender.send_with_duration limits s ccm_type value duration_seconds
        room region order priority now local_ip
      = (s, .error (.irrigationTooLong duration_seconds
          limits.max_irrigation_duration_seconds)) := by
  unfold CcmSender.send_with_duration
  rw [if_pos ⟨hIrri, hDur⟩]

/-- C2 witness: the guard at the concrete call `send_with_duration("Irri",
1, 3601)` under the default limits (maximum 3600 s). -/
theorem send_with_duration_irrigation_guard_witness :
    pyContains "Irri" "Irri" = true ∧
    (3601 : ℤ) > defaultSafetyLimits.max_irrigation_duration_seconds ∧
    CcmSender.send_with_duration defaultSafetyLimits initialSender "Irri"
        ⟨1, 0⟩ 3601 1 1 1 10 5 "192.168.1.100"
      = (initialSender, .error (.irrigationTooLong 3601
          defaultSafetyLimits.max_irrigation_duration_seconds)) :=
  ⟨by decide, by decide,
   send_with_duration_irrigation_guard defaultSafetyLimits initialSender
     "Irri" ⟨1, 0⟩ 3601 1 1 1 10 5 "192.168.1.100" (by decide) (by decide)⟩

/-- C4: after two updates whose packets share the same room and normalized
type, a read for that key returns the second packet (paired with the second
update time) only — the most recent packet per key wins regardless of the
first packet's value. -/
theorem cache_last_write_wins (s : SensorCache) (p1 p2 : CcmPacket)
    (t1 t2 : ℚ) (hroom : p1.room = p2.room)
    (htype : p1.ccm_type = p2.ccm_type) :
    SensorCache.get (SensorCache.update (SensorCache.update s p1 t1) p2 t2)
      ("h" ++ (⟨renderInt p2.room⟩ : String)) p2.ccm_type = some ⟨p2, t2⟩ :=
  get_update_self (SensorCache.update s p1 t1) p2 t2

/-- C4 witness: two `InAirTemp` packets for room 1 with values 20 and 25;
after both updates the cached entry for `("h1", "InAirTemp")` holds the
value-25 packet with the second update time. -/
theorem cache_last_write_wins_witness :
    ((⟨"InAirTemp", "InAirTemp", .num 20, 1, 1, 1, 29, "S", "uni",
        "192.168.1.70", 0⟩ : CcmPacket).room
      = (⟨"InAirTemp", "InAirTemp", .num 25, 1, 1, 1, 29, "S", "uni",
        "192.168.1.70", 1⟩ : CcmPacket).room) ∧
    ((⟨"InAirTemp", "InAirTemp", .num 20, 1, 1, 1, 29, "S", "uni",
        "192.168.1.70", 0⟩ : CcmPacket).ccm_type
      = (⟨"InAirTemp", "InAirTemp", .num 25, 1, 1, 1, 29, "S", "uni",
        "192.168.1.70", 1⟩ : CcmPacket).ccm_type) ∧
    SensorCache.get
      (SensorCache.update
        (SensorCache.update emptyCache
          ⟨"InAirTemp", "InAirTemp", .num 20, 1, 1, 1, 29, "S", "uni",
            "192.168.1.70", 0⟩ 0)
        ⟨"InAirTemp", "InAirTemp", .num 25, 1, 1, 1, 29, "S", "uni",
          "192.168.1.70", 1⟩ 1)
      ("h" ++ (⟨renderInt (⟨"InAirTemp", "InAirTemp", .num 25, 1, 1, 1, 29,
        "S", "uni", "192.168.1.70", 1⟩ : CcmPacket).room⟩ : String))
      (⟨"InAirTemp", "InAirTemp", .num 25, 1, 1, 1, 29, "S", "uni",
        "192.168.1.70", 1⟩ : CcmPacket).ccm_type
      = some ⟨⟨"InAirTemp", "InAirTemp", .num 25, 1, 1, 1, 29, "S", "uni",
          "192.168.1.70", 1⟩, 1⟩ :=
  ⟨rfl, rfl,
   cache_last_write_wins emptyCache _ _ 0 1 rfl rfl⟩

/-- C5 counterexample: `list_nodes` returns the cache's own mutable
`NodeInfo` objects, not copies.  After one update from source
`192.168.1.70` the view returned by `list_nodes` references node object 0;
a subsequent update from the same source mutates that object in place
(its type set and last-seen time change), so the previously returned view
is altered — refuting "subsequent cache updates never alter a previously
returned view". -/
theorem list_nodes_view_mutated_by_update :
    (0 ∈ SensorCache.list_nodes
      (SensorCache.update emptyCache
        ⟨"InAirTemp", "InAirTemp.mC", .num 22, 1, 1, 1, 29, "S", "uni",
          "192.168.1.70", 0⟩ 0) false 300 0) ∧
    alookup (SensorCache.update
        (SensorCache.update emptyCache
          ⟨"InAirTemp", "InAirTemp.mC", .num 22, 1, 1, 1, 29, "S", "uni",
            "192.168.1.70", 0⟩ 0)
        ⟨"SoilTemp", "SoilTemp.mC", .num 15, 1, 1, 1, 29, "S", "uni",
          "192.168.1.70", 1⟩ 1).nodeHeap 0
      ≠ alookup (SensorCache.update emptyCache
          ⟨"InAirTemp", "InAirTemp.mC", .num 22, 1, 1, 1, 29, "S", "uni",
            "192.168.1.70", 0⟩ 0).nodeHeap 0 := by
  constructor
  · decide
  · decide

/-- C5 (amended): value-cache reads are stable — every update installs a
*fresh* `CacheEntry` object and never mutates an existing one, so the
contents of any entry object already reachable from an earlier `get`,
`get_by_category` or `all_entries` view are unchanged by later updates.
(Node views from `list_nodes`, by contrast, alias mutable `NodeInfo`
objects that later updates mutate in place — see the counterexample.) -/
theorem update_preserves_entry_objects (s : SensorCache) (p : CcmPacket)
    (now : ℚ) (i : ℕ) (e : CacheEntry) (hid : i < s.nextEntryId)
    (h : alookup s.entryHeap i = some e) :
    alookup (SensorCache.update s p now).entryHeap i = some e := by
  rw [update_entryHeap_eq]
  have hne : ¬(i = s.nextEntryId) := by omega
  simp [alookup, hne, h]

/-- C5 witness: the entry object installed by a first update keeps its
contents across a second update for a different key. -/
theorem update_preserves_entry_objects_witness :
    (0 < (SensorCache.update emptyCache
      ⟨"InAirTemp", "InAirTemp.mC", .num 22, 1, 1, 1, 29, "S", "uni",
        "192.168.1.70", 0⟩ 0).nextEntryId) ∧
    (alookup (SensorCache.update emptyCache
      ⟨"InAirTemp", "InAirTemp.mC", .num 22, 1, 1, 1, 29, "S", "uni",
        "192.168.1.70", 0⟩ 0).entryHeap 0
      = some ⟨⟨"InAirTemp", "InAirTemp.mC", .num 22, 1, 1, 1, 29, "S", "uni",
          "192.168.1.70", 0⟩, 0⟩) ∧
    alookup (SensorCache.update
      (SensorCache.update emptyCache
        ⟨"InAirTemp", "InAirTemp.mC", .num 22, 1, 1, 1, 29, "S", "uni",
          "192.168.1.70", 0⟩ 0)
      ⟨"SoilTemp", "SoilTemp.mC", .num 15, 1, 1, 1, 29, "S", "uni",
        "192.168.1.70", 1⟩ 1).entryHeap 0
      = some ⟨⟨"InAirTemp", "InAirTemp.mC", .num 22, 1, 1, 1, 29, "S", "uni",
          "192.168.1.70", 0⟩, 0⟩ :=
  ⟨by decide, by decide,
   update_preserves_entry_objects _ _ 1 0 _ (by decide) (by decide)⟩

/-- C9 counterexample: a node whose last-seen time lies *exactly*
`timeout_seconds` before `now` is known (present with `active_only =
false`) and is not "more than `timeoutSeconds` before now", yet
`list_nodes` with `active_only = true` excludes it — the code keeps a node
only when the elapsed time is strictly less than the timeout. -/
theorem list_nodes_excludes_boundary_node :
    (0 ∈ SensorCache.list_nodes
      ⟨[], [], 0, [("192.168.1.70", 0)],
        [(0, ⟨"192.168.1.70", ["InAirTemp"], 0⟩)], 1⟩ false 300 300) ∧
    ¬((300 : ℚ) - 0 > 300) ∧
    (0 ∉ SensorCache.list_nodes
      ⟨[], [], 0, [("192.168.1.70", 0)],
        [(0, ⟨"192.168.1.70", ["InAirTemp"], 0⟩)], 1⟩ true 300 300) := by
  refine ⟨by decide, by norm_num, ?_⟩
  simp only [SensorCache.list_nodes, List.map, List.mem_filter, alookup]
  norm_num

/-- C9 (amended): `list_nodes` with `active_only = false` returns every
known node; with `active_only = true` it keeps a known node exactly when
its last-seen time is strictly within `timeout_seconds` of `now` (so a node
last seen at least `timeout_seconds` ago — including exactly — is
excluded). -/
theorem list_nodes_liveness (s : SensorCache) (timeout now : ℚ) (i : ℕ)
    (ni : NodeInfo) (h : alookup s.nodeHeap i = some ni) :
    SensorCache.list_nodes s false timeout now = s.nodes.map (fun p => p.2) ∧
    (i ∈ SensorCache.list_nodes s true timeout now ↔
      i ∈ SensorCache.list_nodes s false timeout now ∧
        now - ni.last_seen < timeout) := by
  unfold SensorCache.list_nodes
  constructor
  · simp
  · simp [List.mem_filter, h]

/-- C9 witness: the amended statement at a one-node cache, timeout 300,
now 100 — the node (last seen at 0) is within the interval and listed. -/
theorem list_nodes_liveness_witness :
    alookup (⟨[], [], 0, [("192.168.1.70", 0)],
        [(0, ⟨"192.168.1.70", ["InAirTemp"], 0⟩)], 1⟩ : SensorCache).nodeHeap 0
      = some ⟨"192.168.1.70", ["InAirTemp"], 0⟩ ∧
    (SensorCache.list_nodes ⟨[], [], 0, [("192.168.1.70", 0)],
        [(0, ⟨"192.168.1.70", ["InAirTemp"], 0⟩)], 1⟩ false 300 100
      = (⟨[], [], 0, [("192.168.1.70", 0)],
        [(0, ⟨"192.168.1.70", ["InAirTemp"], 0⟩)], 1⟩ : SensorCache).nodes.map
          (fun p => p.2) ∧
    (0 ∈ SensorCache.list_nodes ⟨[], [], 0, [("192.168.1.70", 0)],
        [(0, ⟨"192.168.1.70", ["InAirTemp"], 0⟩)], 1⟩ true 300 100 ↔
      0 ∈ SensorCache.list_nodes ⟨[], [], 0, [("192.168.1.70", 0)],
        [(0, ⟨"192.168.1.70", ["InAirTemp"], 0⟩)], 1⟩ false 300 100 ∧
        (100 : ℚ) - (⟨"192.168.1.70", ["InAirTemp"], 0⟩ : NodeInfo).last_seen
          < 300)) :=
  ⟨by decide, list_nodes_liveness _ 300 100 0 _ (by decide)⟩

/-- C1: after a successful `send` at time `t1`, an identical call at `t2`
with `t2 - t1` below the configured minimum interval raises the rate-limit
`ValueError` carrying the elapsed (`t2 - t1`) versus required
(`min_send_interval_seconds`) seconds and leaves the state unchanged, while
an identical call at `t3` with the interval elapsed succeeds.  (The Python
message renders exactly these two quantities:
`"Rate limited: {elapsed:.1f}s since last send, minimum is {min}s"`.) -/
theorem send_rate_limited_within_interval_then_recovers
    (limits : SafetyLimits) (s s1 : SenderState) (ccm_type : String)
    (value : Deci) (room region order priority : ℤ) (t1 t2 t3 : ℚ)
    (ip : String) (msg : String)
    (hfirst : CcmSender.send limits s ccm_type value room region order
      priority t1 ip = (s1, .ok msg))
    (h2 : t2 - t1 < limits.min_send_interval_seconds)
    (h3 : limits.min_send_interval_seconds ≤ t3 - t1) :
    CcmSender.send limits s1 ccm_type value room region order priority t2 ip
      = (s1, .error (.rateLimited (t2 - t1)
          limits.min_send_interval_seconds)) ∧
    ∃ s3 msg3, CcmSender.send limits s1 ccm_type value room region order
      priority t3 ip = (s3, .ok msg3) := by
  have hlast : s1.lastSendTime = t1 := send_ok_lastSendTime hfirst
  have hmem : ccm_type ∈ limits.allowed_actuators := send_ok_allowed hfirst
  constructor
  · simp only [CcmSender.send]
    rw [if_neg (not_not_intro hmem), hlast, if_pos h2]
  · refine ⟨{ s1 with
        sentLog := s1.sentLog ++ [build_ccm_xml ccm_type (.num value) room
          region order priority "A" "uni" ip]
        lastSendTime := t3 },
      "Sent " ++ ccm_type ++ "=" ++ (if value.m ≠ 0 then "ON" else "OFF") ++
        " (priority=" ++ (⟨renderInt priority⟩ : String) ++ ", room=" ++
        (⟨renderInt room⟩ : String) ++ ")", ?_⟩
    simp only [CcmSender.send]
    rw [if_neg (not_not_intro hmem), hlast, if_neg (not_lt.mpr h3)]

/-- C1 witness: with the default limits (interval 1 s), a first send of
`Irri` at t = 5 succeeds; repeating it at t = 5 (elapsed 0 s) is rate
limited with elapsed 0 versus required 1 carried in the error, and
repeating it at t = 6 succeeds. -/
theorem send_rate_limited_within_interval_then_recovers_witness :
    (CcmSender.send defaultSafetyLimits initialSender "Irri" ⟨1, 0⟩ 1 1 1 10
        5 "192.168.1.100"
      = (⟨5, [], [], 0, [build_ccm_xml "Irri" (.num ⟨1, 0⟩) 1 1 1 10 "A"
          "uni" "192.168.1.100"]⟩, .ok "Sent Irri=ON (priority=10, room=1)")) ∧
    ((5 : ℚ) - 5 < defaultSafetyLimits.min_send_interval_seconds) ∧
    (defaultSafetyLimits.min_send_interval_seconds ≤ (6 : ℚ) - 5) ∧
    (CcmSender.send defaultSafetyLimits
        ⟨5, [], [], 0, [build_ccm_xml "Irri" (.num ⟨1, 0⟩) 1 1 1 10 "A"
          "uni" "192.168.1.100"]⟩ "Irri" ⟨1, 0⟩ 1 1 1 10 5 "192.168.1.100"
      = (⟨5, [], [], 0, [build_ccm_xml "Irri" (.num ⟨1, 0⟩) 1 1 1 10 "A"
          "uni" "192.168.1.100"]⟩,
         .error (.rateLimited ((5 : ℚ) - 5)
           defaultSafetyLimits.min_send_interval_seconds)) ∧
     ∃ s3 msg3, CcmSender.send defaultSafetyLimits
        ⟨5, [], [], 0, [build_ccm_xml "Irri" (.num ⟨1, 0⟩) 1 1 1 10 "A"
          "uni" "192.168.1.100"]⟩ "Irri" ⟨1, 0⟩ 1 1 1 10 6 "192.168.1.100"
       = (s3, .ok msg3)) := by
  have hfirst : CcmSender.send defaultSafetyLimits initialSender "Irri"
      ⟨1, 0⟩ 1 1 1 10 5 "192.168.1.100"
      = (⟨5, [], [], 0, [build_ccm_xml "Irri" (.num ⟨1, 0⟩) 1 1 1 10 "A"
          "uni" "192.168.1.100"]⟩, .ok "Sent Irri=ON (priority=10, room=1)") := by
    simp only [CcmSender.send]
    rw [if_neg (show ¬("Irri" ∉ defaultSafetyLimits.allowed_actuators) from
        by decide),
      if_neg (show ¬((5 : ℚ) - initialSender.lastSendTime
          < defaultSafetyLimits.min_send_interval_seconds) from
        by norm_num [initialSender, defaultSafetyLimits])]
    rfl
  exact ⟨hfirst, by norm_num [defaultSafetyLimits],
    by norm_num [defaultSafetyLimits],
    send_rate_limited_within_interval_then_recovers defaultSafetyLimits
      initialSender _ "Irri" ⟨1, 0⟩ 1 1 1 10 5 5 6 "192.168.1.100" _ hfirst
      (by norm_num [defaultSafetyLimits]) (by norm_num [defaultSafetyLimits])⟩

/-- C10: the rate limit is global, not keyed.  After any successful send,
a send of *any* allowed actuator type with any room, region, order and
priority, made within the minimum interval, fails with the rate-limit
error — the last-send time is the sender's single scalar
`_last_send_time`, shared across all keys. -/
theorem send_rate_limit_is_global
    (limits : SafetyLimits) (s s1 : SenderState) (msg : String)
    (ccm1 : String) (v1 : Deci) (room1 region1 order1 priority1 : ℤ)
    (t1 : ℚ) (ip1 : String) (ccm2 : String) (v2 : Deci)
    (room2 region2 order2 priority2 : ℤ) (t2 : ℚ) (ip2 : String)
    (hfirst : CcmSender.send limits s ccm1 v1 room1 region1 order1 priority1
      t1 ip1 = (s1, .ok msg))
    (hallowed : ccm2 ∈ limits.allowed_actuators)
    (h2 : t2 - t1 < limits.min_send_interval_seconds) :
    CcmSender.send limits s1 ccm2 v2 room2 region2 order2 priority2 t2 ip2
      = (s1, .error (.rateLimited (t2 - t1)
          limits.min_send_interval_seconds)) := by
  have hlast : s1.lastSendTime = t1 := send_ok_lastSendTime hfirst
  simp only [CcmSender.send]
  rw [if_neg (not_not_intro hallowed), hlast, if_pos h2]

/-- C10 witness: a successful send of `Irri` (room 1) at t = 5 rate-limits
a send of a *different* actuator `VenFan` in a *different* room 2 (with
different region, order and priority) at t = 5. -/
theorem send_rate_limit_is_global_witness :
    (CcmSender.send defaultSafetyLimits initialSender "Irri" ⟨1, 0⟩ 1 1 1 10
        5 "192.168.1.100"
      = (⟨5, [], [], 0, [build_ccm_xml "Irri" (.num ⟨1, 0⟩) 1 1 1 10 "A"
          "uni" "192.168.1.100"]⟩, .ok "Sent Irri=ON (priority=10, room=1)")) ∧
    ("VenFan" ∈ defaultSafetyLimits.allowed_actuators) ∧
    ((5 : ℚ) - 5 < defaultSafetyLimits.min_send_interval_seconds) ∧
    CcmSender.send defaultSafetyLimits
        ⟨5, [], [], 0, [build_ccm_xml "Irri" (.num ⟨1, 0⟩) 1 1 1 10 "A"
          "uni" "192.168.1.100"]⟩ "VenFan" ⟨0, 0⟩ 2 3 4 1 5 "192.168.1.100"
      = (⟨5, [], [], 0, [build_ccm_xml "Irri" (.num ⟨1, 0⟩) 1 1 1 10 "A"
          "uni" "192.168.1.100"]⟩,
         .error (.rateLimited ((5 : ℚ) - 5)
           defaultSafetyLimits.min_send_interval_seconds)) := by
  have hfirst : CcmSender.send defaultSafetyLimits initialSender "Irri"
      ⟨1, 0⟩ 1 1 1 10 5 "192.168.1.100"
      = (⟨5, [], [], 0, [build_ccm_xml "Irri" (.num ⟨1, 0⟩) 1 1 1 10 "A"
          "uni" "192.168.1.100"]⟩, .ok "Sent Irri=ON (priority=10, room=1)") := by
    simp only [CcmSender.send]
    rw [if_neg (show ¬("Irri" ∉ defaultSafetyLimits.allowed_actuators) from
        by decide),
      if_neg (show ¬((5 : ℚ) - initialSender.lastSendTime
          < defaultSafetyLimits.min_send_interval_seconds) from
        by norm_num [initialSender, defaultSafetyLimits])]
    rfl
  exact ⟨hfirst, by decide, by norm_num [defaultSafetyLimits],
    send_rate_limit_is_global defaultSafetyLimits initialSender _
      "Sent Irri=ON (priority=10, room=1)" "Irri" ⟨1, 0⟩ 1 1 1 10 5
      "192.168.1.100" "VenFan" ⟨0, 0⟩ 2 3 4 1 5 "192.168.1.100" hfirst
      (by decide) (by norm_num [defaultSafetyLimits])⟩

/-- C3: for every allowed actuator type `T` (none of which carries a
strippable suffix) and every decimal numeric value, parsing the document
produced by `build_ccm_xml` yields exactly one packet whose normalized type
is `T`, whose value is the float denoted by the decimal text, and whose
room, region, order, priority, level and cast equal the build arguments
(the trailing `IP` element contributes no packet). -/
theorem parse_build_roundtrip (T : String)
    (hT : T ∈ defaultSafetyLimits.allowed_actuators) (d : Deci)
    (room region order priority : ℤ) (level cast local_ip source_ip : String)
    (now : ℚ) :
    parse_ccm_xml (some (build_ccm_xml T (.num d) room region order priority
        level cast local_ip)) source_ip now
      = [{ ccm_type := T, raw_type := T, value := .num d.toRat, room := room,
           region := region, order := order, priority := priority,
           level := level, cast := cast, source_ip := source_ip,
           timestamp := now }] := by
  have hstrip : strip_ccm_suffix T = T := strip_allowed T hT
  show [elemToPacket source_ip now
    ⟨"DATA",
     [("type", T), ("room", ⟨renderInt room⟩), ("region", ⟨renderInt region⟩),
      ("order", ⟨renderInt order⟩), ("priority", ⟨renderInt priority⟩),
      ("lv", level), ("cast", cast)], renderPyVal (.num d)⟩] = _
  congr 1
  have hfloat : parseFloatChars
      (pyStrip (renderPyVal (PyVal.num d))).data = some d.toRat := by
    rw [show pyStrip (renderPyVal (PyVal.num d)) = (⟨renderDeciChars d⟩ : String)
      from pyStrip_renderDeci d]
    exact parseFloat_renderDeci d
  unfold elemToPacket
  simp [alookup, hstrip, hfloat, parseInt_renderInt]

/-- C3 witness: the round trip at `T = "Irri"`, value 1.5 (`⟨15, 1⟩`),
room 2, region 3, order 1, priority 10. -/
theorem parse_build_roundtrip_witness :
    ("Irri" ∈ defaultSafetyLimits.allowed_actuators) ∧
    parse_ccm_xml (some (build_ccm_xml "Irri" (.num ⟨15, 1⟩) 2 3 1 10 "A"
        "uni" "10.0.0.1")) "10.0.0.1" 7
      = [{ ccm_type := "Irri", raw_type := "Irri",
           value := .num (Deci.toRat ⟨15, 1⟩), room := 2, region := 3,
           order := 1, priority := 10, level := "A", cast := "uni",
           source_ip := "10.0.0.1", timestamp := 7 }] :=
  ⟨by decide,
   parse_build_roundtrip "Irri" (by decide) ⟨15, 1⟩ 2 3 1 10 "A" "uni"
     "10.0.0.1" "10.0.0.1" 7⟩

/-- C6 counterexample: a well-formed document whose root has one child
element that is not tagged `DATA` (here the `IP` element that every
outbound packet of this very protocol contains) yields zero packets, not
one — `parse_ccm_xml` only converts children found by
`root.findall("DATA")`. -/
theorem parse_ignores_non_data_children :
    parse_ccm_xml (some ⟨"UECS", [("ver", "1.00-E10")],
      [⟨"IP", [], "192.168.1.100"⟩]⟩) "" 0 = [] ∧
    ([(⟨"IP", [], "192.168.1.100"⟩ : XmlElem)] : List XmlElem).length = 1 := by
  constructor
  · rfl
  · rfl

/-- C6 (amended): for every document, `parse_ccm_xml` returns exactly one
packet per child element *tagged `DATA`*, in document order; the i-th
packet's raw type is the i-th `DATA` child's `type` attribute (default
`""`), its normalized type is that raw type with the suffix stripped, and
it carries the given source address and capture time. -/
theorem parse_data_children_in_order (doc : XmlDoc) (ip : String) (now : ℚ)
    (i : ℕ)
    (h : i < (doc.children.filter (fun el => el.tag = "DATA")).length) :
    (parse_ccm_xml (some doc) ip now).length
        = (doc.children.filter (fun el => el.tag = "DATA")).length ∧
    ((parse_ccm_xml (some doc) ip now).getD i defaultCcmPacket).raw_type
        = (alookup ((doc.children.filter (fun el => el.tag = "DATA")).getD i
            defaultXmlElem).attrs "type").getD "" ∧
    ((parse_ccm_xml (some doc) ip now).getD i defaultCcmPacket).ccm_type
        = strip_ccm_suffix
            (((parse_ccm_xml (some doc) ip now).getD i
              defaultCcmPacket).raw_type) ∧
    ((parse_ccm_xml (some doc) ip now).getD i defaultCcmPacket).source_ip
        = ip ∧
    ((parse_ccm_xml (some doc) ip now).getD i defaultCcmPacket).timestamp
        = now := by
  have hp : parse_ccm_xml (some doc) ip now
      = (doc.children.filter (fun el => el.tag = "DATA")).map
          (elemToPacket ip now) := rfl
  have hlen : (parse_ccm_xml (some doc) ip now).length
      = (doc.children.filter (fun el => el.tag = "DATA")).length := by
    rw [hp, List.length_map]
  have hmem : i < (parse_ccm_xml (some doc) ip now).length := by omega
  have hgetD : (parse_ccm_xml (some doc) ip now).getD i defaultCcmPacket
      = elemToPacket ip now
          ((doc.children.filter (fun el => el.tag = "DATA")).getD i
            defaultXmlElem) := by
    rw [List.getD_eq_getElem _ _ hmem, List.getD_eq_getElem _ _ h]
    simp only [hp, List.getElem_map]
  refine ⟨hlen, ?_, ?_, ?_, ?_⟩ <;> rw [hgetD] <;> rfl

/-- C6 witness: the amended statement at a document with one suffixed
`DATA` child followed by an `IP` child: one packet, raw type
`"InAirTemp.mC"` preserved, normalized type stripped. -/
theorem parse_data_children_in_order_witness :
    (0 < (((⟨"UECS", [("ver", "1.00-E10")],
      [⟨"DATA", [("type", "InAirTemp.mC")], "22.5"⟩,
       ⟨"IP", [], "192.168.1.100"⟩]⟩ : XmlDoc)).children.filter
        (fun el => el.tag = "DATA")).length) ∧
    ((parse_ccm_xml (some ⟨"UECS", [("ver", "1.00-E10")],
        [⟨"DATA", [("type", "InAirTemp.mC")], "22.5"⟩,
         ⟨"IP", [], "192.168.1.100"⟩]⟩) "192.168.1.70" 0).length
      = (((⟨"UECS", [("ver", "1.00-E10")],
        [⟨"DATA", [("type", "InAirTemp.mC")], "22.5"⟩,
         ⟨"IP", [], "192.168.1.100"⟩]⟩ : XmlDoc)).children.filter
          (fun el => el.tag = "DATA")).length) ∧
    ((parse_ccm_xml (some ⟨"UECS", [("ver", "1.00-E10")],
        [⟨"DATA", [("type", "InAirTemp.mC")], "22.5"⟩,
         ⟨"IP", [], "192.168.1.100"⟩]⟩) "192.168.1.70" 0).getD 0
        defaultCcmPacket).raw_type = "InAirTemp.mC" ∧
    ((parse_ccm_xml (some ⟨"UECS", [("ver", "1.00-E10")],
        [⟨"DATA", [("type", "InAirTemp.mC")], "22.5"⟩,
         ⟨"IP", [], "192.168.1.100"⟩]⟩) "192.168.1.70" 0).getD 0
        defaultCcmPacket).ccm_type = "InAirTemp" := by
  have h := parse_data_children_in_order
    ⟨"UECS", [("ver", "1.00-E10")],
      [⟨"DATA", [("type", "InAirTemp.mC")], "22.5"⟩,
       ⟨"IP", [], "192.168.1.100"⟩]⟩ "192.168.1.70" 0 0 (by decide)
  exact ⟨by decide, h.1, by decide, by decide⟩

end UecsCcm
